import Mathlib

/-!
Verification development for the zctor documentation toolchain.

The repository has two tools:
* `docs/generate_docs.py` — scans Zig source files, extracts `//!` / `///`
  documentation comments and `pub fn` / `pub const` declaration signatures,
  and renders a markdown API reference;
* `docs/generate_book.py` — assembles a fixed registry of chapter files into
  one combined markdown book.

Source text is modelled as `List Char`.  Python's `str.split('\n')`,
`str.strip()`, `str.startswith`, the `in` substring test and the two regular
expressions used by the extractor are each given an explicit executable
model below, faithful to their behaviour on the inputs the tool feeds them.
-/

namespace Zctor

/-- The whitespace set of Python's `str.strip()` (ASCII part). -/
def pyIsSpace (c : Char) : Bool :=
  c == ' ' || c == '\t' || c == '\n' || c == '\r' || c == '\x0b' || c == '\x0c'

/-- Python `s.strip()`: drop leading and trailing whitespace. -/
def pyStrip (s : List Char) : List Char :=
  ((s.dropWhile pyIsSpace).reverse.dropWhile pyIsSpace).reverse

/-- A regex `\w` word character (ASCII part): alphanumeric or underscore. -/
def isWordChar (c : Char) : Bool :=
  c.isAlphanum || c == '_'

/-- The opening-brace character (code point 123). -/
def lbrace : Char := Char.ofNat 123

/-- Python `s.startswith(pat)`: `startsWith pat s` is true when `pat` is an
initial segment of `s`. -/
def startsWith : List Char → List Char → Bool
  | [], _ => true
  | _ :: _, [] => false
  | p :: ps, c :: cs => p == c && startsWith ps cs

/-- Python's substring test `pat in s`. -/
def hasSub (pat : List Char) : List Char → Bool
  | [] => startsWith pat []
  | c :: rest => startsWith pat (c :: rest) || hasSub pat rest

/-- Python `content.split('\n')`: always at least one piece; a trailing
newline yields a trailing empty piece. -/
def splitLines : List Char → List (List Char)
  | [] => [[]]
  | c :: rest =>
    if c == '\n' then [] :: splitLines rest
    else
      match splitLines rest with
      | l :: ls => (c :: l) :: ls
      | [] => [[c]]

/-- Python `'\n'.join(pieces)` (and `join` of the empty list is empty, which
also covers the `if doc_lines else ''` branch in the source). -/
def joinNL : List (List Char) → List Char
  | [] => []
  | [x] => x
  | x :: y :: rest => x ++ '\n' :: joinNL (y :: rest)

/-- `lines[j].strip().startswith('///')` — the item-doc test used by the
backward documentation scan. -/
def isItemDocLine (l : List Char) : Bool :=
  startsWith ('/' :: '/' :: '/' :: []) (pyStrip l)

/-- `lines[j].strip()[3:].strip()` — the text stored for one doc line. -/
def docText (l : List Char) : List Char :=
  pyStrip ((pyStrip l).drop 3)

/-- The backward documentation scan of `extract_function_signatures` /
`extract_structs_and_enums`: for a declaration at line index `i`, walk
`j = i-1, i-2, …` while `lines[j].strip().startswith('///')`, prepending each
stripped line.  `docsAbove lines i` is the list `doc_lines` the Python loop
builds.  The `j >= 0` loop guard is the `0` base case. -/
def docsAbove (lines : List (List Char)) : Nat → List (List Char)
  | 0 => []
  | i + 1 =>
    if isItemDocLine (lines.getD i []) then
      docsAbove lines i ++ [docText (lines.getD i [])]
    else []

/-- Specification-side description from the spec's invariant: the maximal
contiguous run of item-doc lines immediately preceding line `i`, in source
order, marker-stripped. -/
def maxRunAbove (lines : List (List Char)) (i : Nat) : List (List Char) :=
  (((lines.take i).reverse.takeWhile isItemDocLine).reverse).map docText

/-- Python list indexing `lines[j]` for an `int` index: nonnegative indices
read from the front, negative indices wrap once from the back (further
out-of-range access is collapsed to the empty line; the extractor's loop
guard keeps it from mattering). -/
def pyIndex (lines : List (List Char)) (j : Int) : List Char :=
  if 0 ≤ j then lines.getD j.toNat []
  else lines.getD (((lines.length : Int) + j).toNat) []

/-- Literal transcription of the Python `while` loop
`while j >= 0 and lines[j].strip().startswith('///')` with `j : Int`, the
short-circuit guard, and Python's wrap-around indexing available to it. -/
def docsLoop (lines : List (List Char)) (j : Int) : List (List Char) :=
  if h : 0 ≤ j ∧ isItemDocLine (pyIndex lines j) = true then
    docsLoop lines (j - 1) ++ [docText (pyIndex lines j)]
  else []
termination_by (j + 1).toNat
decreasing_by
  have h0 : 0 ≤ j := h.1
  omega

/-- The regex `pub fn\s+(\w+)\s*\((.*?)\)\s*(.*?)(?:\{|$)` applied with
`re.match` to the stripped line: returns the captured
(name, parameter-list, raw return-type) or `none` when the line does not
have the expected single-line shape. -/
def parseFunLine (stripped : List Char) : Option (List Char × List Char × List Char) :=
  if startsWith ("pub fn".data) stripped then
    let r1 := stripped.drop 6
    if (r1.takeWhile pyIsSpace).isEmpty then none
    else
      let r2 := r1.dropWhile pyIsSpace
      let name := r2.takeWhile isWordChar
      if name.isEmpty then none
      else
        let r3 := (r2.dropWhile isWordChar).dropWhile pyIsSpace
        match r3 with
        | '(' :: r4 =>
          let params := r4.takeWhile (fun c => c != ')')
          match r4.dropWhile (fun c => c != ')') with
          | ')' :: r6 =>
            let ret := (r6.dropWhile pyIsSpace).takeWhile (fun c => c != lbrace)
            some (name, params, ret)
          | _ => none
        | _ => none
  else none

/-- The regex `pub const\s+(\w+)\s*=\s*(.*?)(?:\{|$)` applied with `re.match`
to the stripped line. -/
def parseConstLine (stripped : List Char) : Option (List Char × List Char) :=
  if startsWith ("pub const".data) stripped then
    let r1 := stripped.drop 9
    if (r1.takeWhile pyIsSpace).isEmpty then none
    else
      let r2 := r1.dropWhile pyIsSpace
      let name := r2.takeWhile isWordChar
      if name.isEmpty then none
      else
        let r3 := (r2.dropWhile isWordChar).dropWhile pyIsSpace
        match r3 with
        | '=' :: r4 =>
          some (name, (r4.dropWhile pyIsSpace).takeWhile (fun c => c != lbrace))
        | _ => none
  else none

/-- One extracted `pub fn` record (`documentation` is the joined
`'\n'.join(doc_lines)` string, exactly as the Python dict stores it). -/
structure FunctionSignature where
  name : List Char
  params : List Char
  return_type : List Char
  documentation : List Char
  line : Nat
deriving DecidableEq

/-- One extracted `pub const … struct/union/enum` record. -/
structure TypeDefinition where
  name : List Char
  type : List Char
  documentation : List Char
  line : Nat
deriving DecidableEq

/-- The body of the `for i, line in enumerate(lines)` loop of
`extract_function_signatures` at index `i`. -/
def funAt (lines : List (List Char)) (i : Nat) : Option FunctionSignature :=
  let stripped := pyStrip (lines.getD i [])
  if startsWith ("pub fn ".data) stripped then
    match parseFunLine stripped with
    | some (n, p, r) =>
      some { name := n, params := p, return_type := pyStrip r,
             documentation := joinNL (docsAbove lines i), line := i + 1 }
    | none => none
  else none

/-- `extract_function_signatures` of `generate_docs.py`. -/
def extract_function_signatures (content : List Char) : List FunctionSignature :=
  let lines := splitLines content
  (List.range lines.length).filterMap (funAt lines)

/-- The body of the `for i, line in enumerate(lines)` loop of
`extract_structs_and_enums` at index `i`. -/
def typeAt (lines : List (List Char)) (i : Nat) : Option TypeDefinition :=
  let stripped := pyStrip (lines.getD i [])
  if startsWith ("pub const ".data) stripped &&
     (hasSub ("struct".data) stripped || hasSub ("union".data) stripped ||
      hasSub ("enum".data) stripped) then
    match parseConstLine stripped with
    | some (n, b) =>
      some { name := n, type := pyStrip b,
             documentation := joinNL (docsAbove lines i), line := i + 1 }
    | none => none
  else none

/-- `extract_structs_and_enums` of `generate_docs.py`. -/
def extract_structs_and_enums (content : List Char) : List TypeDefinition :=
  let lines := splitLines content
  (List.range lines.length).filterMap (typeAt lines)

/-- The per-line case of `extract_doc_comments`: `//!` is tested first,
then `///`; the stored value is `stripped[3:].strip()`. -/
def lineDocValue (l : List Char) : Option (List Char) :=
  if startsWith ("//!".data) (pyStrip l) then some (pyStrip ((pyStrip l).drop 3))
  else if startsWith ("///".data) (pyStrip l) then some (pyStrip ((pyStrip l).drop 3))
  else none

/-- The `for line in lines` loop of `extract_doc_comments`, appending the
stored value of each qualifying line in order. -/
def docCommentsLoop : List (List Char) → List (List Char)
  | [] => []
  | line :: rest =>
    if startsWith ("//!".data) (pyStrip line) then
      pyStrip ((pyStrip line).drop 3) :: docCommentsLoop rest
    else if startsWith ("///".data) (pyStrip line) then
      pyStrip ((pyStrip line).drop 3) :: docCommentsLoop rest
    else docCommentsLoop rest

/-- `extract_doc_comments` of `generate_docs.py`. -/
def extract_doc_comments (content : List Char) : List (List Char) :=
  docCommentsLoop (splitLines content)

/-- The stored value exactly as claim C4 words it: from the trimmed line,
the matched marker prefix — the three marker characters plus one following
space if present — is removed and nothing else is altered. -/
def c4ClaimValue (stripped : List Char) : List Char :=
  match stripped.drop 3 with
  | ' ' :: rest => rest
  | rest => rest

/-- The per-file record built by `process_source_file` (a Python dict with
keys `file`, `module_docs`, `functions`, `types`). -/
structure FileRecord where
  file : List Char
  module_docs : List (List Char)
  functions : List FunctionSignature
  types : List TypeDefinition
deriving DecidableEq

/-- `file_path.relative_to(self.src_dir)` for slash-separated paths: strip
the root-plus-separator from the front.  (`pathlib` raises when the path is
not under the root; `scan_source_files` only ever passes globbed children of
the root, so that branch is unreachable and left as the identity here.) -/
def relativeTo (root p : List Char) : List Char :=
  if startsWith (root ++ ['/']) p then p.drop (root.length + 1) else p

/-- The record `process_source_file` builds after a successful read. -/
def fileRecordOf (src p content : List Char) : FileRecord :=
  { file := relativeTo src p
    module_docs := extract_doc_comments content
    functions := extract_function_signatures content
    types := extract_structs_and_enums content }

/-- What reading one source file can do: succeed with content, raise
`UnicodeDecodeError`, or raise an I/O error (`OSError` and kin). -/
inductive ReadOutcome where
  | ok (content : List Char)
  | decodeErr
  | ioErr
deriving DecidableEq

/-- The warning `process_source_file` prints on a decoding failure. -/
def warnMsg (p : List Char) : List Char :=
  "Warning: Could not read ".data ++ p ++ " as UTF-8".data

/-- `process_source_file`: the `try`/`except UnicodeDecodeError` around the
read.  A decode error is caught, warned about and turned into the empty
dict (`none` here); an I/O error is *not* caught and propagates
(`Except.error`).  The second component collects printed warnings. -/
def process_source_file (src p : List Char) (r : ReadOutcome) :
    Except Unit (Option FileRecord × List (List Char)) :=
  match r with
  | .ok c => .ok (some (fileRecordOf src p c), [])
  | .decodeErr => .ok (none, [warnMsg p])
  | .ioErr => .error ()

/-- The `for zig_file in …` loop of `scan_source_files` over the globbed
files (each paired with its read outcome): records with a truthy
`file_info` are kept in order; an uncaught exception aborts the whole
loop. -/
def scan_source_files (src : List Char) :
    List (List Char × ReadOutcome) →
    Except Unit (List (List Char × FileRecord) × List (List Char))
  | [] => .ok ([], [])
  | (p, r) :: rest =>
    match process_source_file src p r with
    | .error e => .error e
    | .ok (info, ws) =>
      match scan_source_files src rest with
      | .error e => .error e
      | .ok (recs, ws2) =>
        .ok ((match info with
              | some fr => [(p, fr)]
              | none => []) ++ recs, ws ++ ws2)

/-! ## API reference renderer (`generate_api_reference`) -/

/-- The module-documentation block: emitted only when `module_docs` is
non-empty; each non-empty entry becomes a paragraph. -/
def renderModuleDocs (docs : List (List Char)) : List Char :=
  if docs.isEmpty then []
  else
    "### Module Documentation\n\n".data ++
    List.flatten (docs.map (fun d => if d.isEmpty then [] else d ++ "\n\n".data))

/-- One type subsection: heading, optional documentation paragraph, and the
raw type body in a labelled code block. -/
def renderTypeDef (t : TypeDefinition) : List Char :=
  "#### `".data ++ t.name ++ "`\n\n".data ++
  (if (TypeDefinition.documentation t).isEmpty then []
   else TypeDefinition.documentation t ++ "\n\n".data) ++
  "```zig\n".data ++ t.type ++ "\n```\n\n".data

/-- One function subsection: heading, optional documentation paragraph, and
the reconstructed one-line signature in a labelled code block. -/
def renderFunction (f : FunctionSignature) : List Char :=
  "#### `".data ++ f.name ++ "`\n\n".data ++
  (if (FunctionSignature.documentation f).isEmpty then []
   else FunctionSignature.documentation f ++ "\n\n".data) ++
  "```zig\npub fn ".data ++ f.name ++ "(".data ++ f.params ++ ")".data ++
  (if f.return_type.isEmpty then [] else " ".data ++ f.return_type) ++
  "\n```\n\n".data

/-- One file's section of the API reference; a record with all three parts
empty is skipped entirely (`continue`). -/
def renderFileRecord (fi : FileRecord) : List Char :=
  if fi.module_docs.isEmpty && fi.functions.isEmpty && fi.types.isEmpty then []
  else
    "## ".data ++ fi.file ++ "\n\n".data ++
    renderModuleDocs fi.module_docs ++
    (if fi.types.isEmpty then []
     else "### Types\n\n".data ++ List.flatten (fi.types.map renderTypeDef)) ++
    (if fi.functions.isEmpty then []
     else "### Functions\n\n".data ++ List.flatten (fi.functions.map renderFunction)) ++
    "---\n\n".data

/-- `generate_api_reference`: folds the file records (in `api_docs` insertion
order) into one markdown document.  The method runs in a process whose
ambient clock (`datetime`) is available to it — `now` is that clock value —
but the body never consults it, which is what claim C9 asserts. -/
def generate_api_reference (now : List Char) (records : List FileRecord) : List Char :=
  "# API Reference\n\nThis is the complete API reference for zctor, automatically generated from source code.\n\n".data ++
  List.flatten (records.map renderFileRecord)

/-! ## Chapter assembler (`generate_book.py`) -/

/-- Decimal rendering of a chapter ordinal (Python `f"{i}"`). -/
def natStr (i : Nat) : List Char := (Nat.repr i).data

/-- The TOC anchor: `title.lower().replace(' ', '-').replace('(', '').replace(')', '')`. -/
def anchorOf (title : List Char) : List Char :=
  ((((title.map Char.toLower).map
      (fun c => if c == ' ' then '-' else c)).filter
      (fun c => c != '(')).filter
      (fun c => c != ')'))

/-- One table-of-contents line `f"{i}. [{title}](#{anchor})\n"`. -/
def tocLine (i : Nat) (title : List Char) : List Char :=
  natStr i ++ ". [".data ++ title ++ "](#".data ++ anchorOf title ++ ")\n".data

/-- The fixed book header, including the `*Generated on {timestamp}*` line. -/
def bookHeader (ts : List Char) : List Char :=
  "# zctor Documentation Book\n\n".data ++
  "A comprehensive guide to the zctor actor framework for Zig.\n\n".data ++
  "*Generated on ".data ++ ts ++ "*\n\n".data ++
  "---\n\n".data

/-- The chapter body written for an existing chapter file: the file content
with its own first line dropped when that first line starts with `#`. -/
def chapterBody (content : List Char) : List Char :=
  if startsWith ("#".data) ((splitLines content).headD []) then
    joinNL (splitLines content).tail
  else content

/-- One chapter section: numbered heading plus either the (header-normalised)
file content or the literal missing-chapter notice, each followed by the
separator. -/
def chapterSection (fs : List Char → Option (List Char)) (i : Nat)
    (fn title : List Char) : List Char :=
  match fs fn with
  | some content =>
    "# ".data ++ natStr i ++ ". ".data ++ title ++ "\n\n".data ++
    chapterBody content ++ "\n\n---\n\n".data
  | none =>
    "# ".data ++ natStr i ++ ". ".data ++ title ++
    "\n\n*Chapter not found: ".data ++ fn ++ "*\n\n---\n\n".data

/-- The `for i, (filename, title) in enumerate(self.chapters, 1)` TOC loop. -/
def writeToc : List (Nat × List Char × List Char) → List Char
  | [] => []
  | (i, _, title) :: rest => tocLine i title ++ writeToc rest

/-- The chapter-writing loop: one section per registry entry, in order. -/
def writeChapters (fs : List Char → Option (List Char)) :
    List (Nat × List Char × List Char) → List Char
  | [] => []
  | (i, fn, title) :: rest => chapterSection fs i fn title ++ writeChapters fs rest

/-- `generate_combined_markdown`: the sequence of `f.write` calls, as one
concatenation.  `fs` is the state of the chapter source directory
(filename ↦ content of the file when it exists), `ts` the formatted
`datetime.now()` value, `chapters` the registry (`self.chapters`). -/
def generate_combined_markdown (fs : List Char → Option (List Char))
    (ts : List Char) (chapters : List (List Char × List Char)) : List Char :=
  bookHeader ts ++
  "## Table of Contents\n\n".data ++
  writeToc (List.enumFrom 1 chapters) ++
  "\n---\n\n".data ++
  writeChapters fs (List.enumFrom 1 chapters)

/-- The fixed chapter registry (`self.chapters` of `BookGenerator`). -/
def defaultChapters : List (List Char × List Char) :=
  [("README.md".data, "Introduction to the Documentation".data),
   ("01-introduction.md".data, "Introduction".data),
   ("02-installation.md".data, "Installation".data),
   ("03-quick-start.md".data, "Quick Start".data),
   ("04-architecture.md".data, "Architecture".data),
   ("05-api-reference.md".data, "API Reference".data),
   ("06-examples.md".data, "Examples".data),
   ("07-best-practices.md".data, "Best Practices".data),
   ("08-advanced-topics.md".data, "Advanced Topics".data),
   ("09-contributing.md".data, "Contributing".data),
   ("10-appendix.md".data, "Appendix".data)]

/-! ## Helper lemmas -/

theorem startsWith_take {p s : List Char} (h : startsWith p s = true) :
    s.take p.length = p := by
  induction p generalizing s with
  | nil => simp
  | cons a as ih =>
    cases s with
    | nil => simp [startsWith] at h
    | cons b bs =>
      simp only [startsWith, Bool.and_eq_true, beq_iff_eq] at h
      simp [ih h.2, h.1]

theorem not_pubfn_and_pubconst {s : List Char}
    (h1 : startsWith ("pub fn ".data) s = true)
    (h2 : startsWith ("pub const ".data) s = true) : False := by
  have e1 := startsWith_take h1
  have e2 := startsWith_take h2
  have hl1 : ("pub fn ".data).length = 7 := by decide
  have hl2 : ("pub const ".data).length = 10 := by decide
  rw [hl1] at e1
  rw [hl2] at e2
  have e3 : s.take 7 = (s.take 10).take 7 := by
    rw [List.take_take]
    norm_num
  rw [e2, e1] at e3
  exact absurd e3 (by decide)

theorem funAt_eq_some {lines : List (List Char)} {i : Nat} {f : FunctionSignature}
    (h : funAt lines i = some f) :
    startsWith ("pub fn ".data) (pyStrip (lines.getD i [])) = true ∧
    f.line = i + 1 ∧ FunctionSignature.documentation f = joinNL (docsAbove lines i) := by
  simp only [funAt] at h
  split at h
  · split at h
    · cases h
      refine ⟨by assumption, rfl, rfl⟩
    · cases h
  · cases h

theorem typeAt_eq_some {lines : List (List Char)} {i : Nat} {t : TypeDefinition}
    (h : typeAt lines i = some t) :
    startsWith ("pub const ".data) (pyStrip (lines.getD i [])) = true ∧
    t.line = i + 1 ∧ TypeDefinition.documentation t = joinNL (docsAbove lines i) := by
  simp only [typeAt] at h
  split at h
  · rename_i hcond
    split at h
    · cases h
      exact ⟨(Bool.and_eq_true _ _ |>.mp hcond).1, rfl, rfl⟩
    · cases h
  · cases h

theorem mem_extract_fun {content : List Char} {f : FunctionSignature}
    (h : f ∈ extract_function_signatures content) :
    ∃ i, i < (splitLines content).length ∧ funAt (splitLines content) i = some f := by
  unfold extract_function_signatures at h
  rcases List.mem_filterMap.mp h with ⟨i, hi, hf⟩
  exact ⟨i, List.mem_range.mp hi, hf⟩

theorem mem_extract_type {content : List Char} {t : TypeDefinition}
    (h : t ∈ extract_structs_and_enums content) :
    ∃ i, i < (splitLines content).length ∧ typeAt (splitLines content) i = some t := by
  unfold extract_structs_and_enums at h
  rcases List.mem_filterMap.mp h with ⟨i, hi, ht⟩
  exact ⟨i, List.mem_range.mp hi, ht⟩

theorem docsAbove_eq_maxRunAbove (lines : List (List Char)) :
    ∀ i, i ≤ lines.length → docsAbove lines i = maxRunAbove lines i := by
  intro i
  induction i with
  | zero => intro _; simp [docsAbove, maxRunAbove]
  | succ n ih =>
    intro h
    have hn : n < lines.length := Nat.lt_of_succ_le h
    have hget : lines[n]? = some (lines.getD n []) := by
      simp [List.getD_eq_getElem?_getD, List.getElem?_eq_getElem hn]
    have htake : lines.take (n + 1) = lines.take n ++ [lines.getD n []] := by
      rw [List.take_succ, hget]
      rfl
    have hrev : (lines.take (n + 1)).reverse = lines.getD n [] :: (lines.take n).reverse := by
      rw [htake, List.reverse_append]
      rfl
    by_cases hdoc : isItemDocLine (lines.getD n []) = true
    · have lhs : docsAbove lines (n + 1) = docsAbove lines n ++ [docText (lines.getD n [])] := by
        rw [docsAbove, if_pos hdoc]
      rw [lhs, ih (Nat.le_of_lt hn), maxRunAbove, maxRunAbove, hrev, List.takeWhile_cons,
        if_pos hdoc]
      simp
    · have lhs : docsAbove lines (n + 1) = [] := by
        rw [docsAbove, if_neg hdoc]
      rw [lhs, maxRunAbove, hrev, List.takeWhile_cons, if_neg hdoc]
      simp

theorem docsLoop_natCast_eq (lines : List (List Char)) :
    ∀ i : Nat, docsLoop lines ((i : Int) - 1) = docsAbove lines i := by
  intro i
  induction i with
  | zero =>
    rw [docsLoop]
    have : ¬(0 ≤ ((0 : Nat) : Int) - 1 ∧
        isItemDocLine (pyIndex lines (((0 : Nat) : Int) - 1)) = true) := by
      intro hc
      omega
    rw [dif_neg this]
    rfl
  | succ n ih =>
    have harg : ((n + 1 : Nat) : Int) - 1 = (n : Int) := by push_cast; ring
    rw [harg, docsLoop]
    have hidx : pyIndex lines (n : Int) = lines.getD n [] := by
      rw [pyIndex, if_pos (by positivity)]
      simp
    by_cases hdoc : isItemDocLine (lines.getD n []) = true
    · rw [dif_pos ⟨by positivity, by rw [hidx]; exact hdoc⟩, hidx, ih]
      rw [docsAbove, if_pos hdoc]
    · rw [dif_neg (by rw [hidx]; exact fun hc => hdoc hc.2)]
      rw [docsAbove, if_neg hdoc]

theorem docsAbove_congr :
    ∀ (i : Nat) (l1 l2 : List (List Char)),
      (∀ k, k < i → l1.getD k [] = l2.getD k []) → docsAbove l1 i = docsAbove l2 i := by
  intro i
  induction i with
  | zero => intro _ _ _; rfl
  | succ n ih =>
    intro l1 l2 hk
    have hn := hk n (Nat.lt_succ_self n)
    rw [docsAbove, docsAbove, hn, ih l1 l2 (fun k hlt => hk k (Nat.lt_succ_of_lt hlt))]

theorem docsAbove_take (lines : List (List Char)) (i : Nat) :
    docsAbove lines i = docsAbove (lines.take i) i := by
  refine docsAbove_congr i lines (lines.take i) (fun k hk => ?_)
  by_cases hlen : k < lines.length
  · rw [List.getD_eq_getElem?_getD, List.getD_eq_getElem?_getD,
      List.getElem?_take_of_lt hk]
  · have h2 : lines.length ≤ k := Nat.le_of_not_lt hlen
    rw [List.getD_eq_getElem?_getD, List.getD_eq_getElem?_getD,
      List.getElem?_eq_none h2, List.getElem?_eq_none (by simp; omega)]

/-! ## Claim theorems -/

/-- C1: for every extracted declaration (function or type), its stored
documentation is exactly the join of the maximal contiguous run of
item-level `///` doc-comment lines immediately preceding the declaration
line, marker-stripped and in source order (`maxRunAbove`).  A declaration
preceded by N such lines and nothing else above therefore yields exactly
the N entries of that run in original order, and a blank or non-doc line
directly above the declaration makes the run — hence the documentation —
empty. -/
theorem extracted_documentation_is_maximal_run (content : List Char) :
    ((extract_function_signatures content).all
      (fun f => FunctionSignature.documentation f ==
        joinNL (maxRunAbove (splitLines content) (f.line - 1))) = true) ∧
    ((extract_structs_and_enums content).all
      (fun t => TypeDefinition.documentation t ==
        joinNL (maxRunAbove (splitLines content) (t.line - 1))) = true) := by
  constructor
  · rw [List.all_eq_true]
    intro f hf
    rcases mem_extract_fun hf with ⟨i, hlen, hsome⟩
    rcases funAt_eq_some hsome with ⟨_, hline, hdoc⟩
    rw [beq_iff_eq, hline, Nat.add_sub_cancel, hdoc,
      docsAbove_eq_maxRunAbove _ i (Nat.le_of_lt hlen)]
  · rw [List.all_eq_true]
    intro t ht
    rcases mem_extract_type ht with ⟨i, hlen, hsome⟩
    rcases typeAt_eq_some hsome with ⟨_, hline, hdoc⟩
    rw [beq_iff_eq, hline, Nat.add_sub_cancel, hdoc,
      docsAbove_eq_maxRunAbove _ i (Nat.le_of_lt hlen)]

/-- C8: the functions list and the types list extracted from any source
text are disjoint — no source line yields both a `FunctionSignature` and a
`TypeDefinition`, because a stripped line cannot start with both `pub fn `
and `pub const `. -/
theorem functions_and_types_disjoint (content : List Char) :
    (extract_function_signatures content).all
      (fun f => (extract_structs_and_enums content).all
        (fun t => f.line != t.line)) = true := by
  rw [List.all_eq_true]
  intro f hf
  rw [List.all_eq_true]
  intro t ht
  rcases mem_extract_fun hf with ⟨i, _, hfi⟩
  rcases mem_extract_type ht with ⟨k, _, htk⟩
  rcases funAt_eq_some hfi with ⟨hpf, hlf, _⟩
  rcases typeAt_eq_some htk with ⟨hpc, hlt, _⟩
  simp only [bne_iff_ne, ne_eq]
  intro heq
  have hik : i = k := by omega
  subst hik
  exact not_pubfn_and_pubconst hpf hpc

/-- C10: the backward documentation scan is safe at the start of file.  The
literal `while j >= 0 and …` loop (`docsLoop`, with Python's wrap-around
negative indexing available to it) computes exactly the guarded structural
scan `docsAbove`; the scan only reads lines strictly above the declaration
(replacing the lines from the declaration on changes nothing); and a
declaration on the very first line gets empty documentation. -/
theorem backward_doc_scan_safe :
    (∀ (lines : List (List Char)) (i : Nat),
        docsLoop lines ((i : Int) - 1) = docsAbove lines i) ∧
    (∀ (lines : List (List Char)) (i : Nat),
        docsAbove lines i = docsAbove (lines.take i) i) ∧
    (∀ lines : List (List Char), docsAbove lines 0 = []) := by
  exact ⟨fun lines i => docsLoop_natCast_eq lines i,
         fun lines i => docsAbove_take lines i,
         fun _ => rfl⟩

theorem docCommentsLoop_eq_filterMap :
    ∀ ls : List (List Char), docCommentsLoop ls = ls.filterMap lineDocValue := by
  intro ls
  induction ls with
  | nil => rfl
  | cons l rest ih =>
    simp only [docCommentsLoop, List.filterMap_cons, lineDocValue]
    by_cases h1 : startsWith ("//!".data) (pyStrip l) = true
    · simp [h1, ih]
    · by_cases h2 : startsWith ("///".data) (pyStrip l) = true
      · simp [h1, h2, ih]
      · simp [h1, h2, ih]

/-- C3: a line whose trimmed form begins with `pub fn ` but does not match
the single-line declaration pattern produces no record at all: no function
record in the output carries that line's (1-based) line number, and the
extraction is a total function — no error is raised and no partially
captured record exists. -/
theorem unmatched_pub_fn_line_yields_no_record (content : List Char) (i : Nat)
    (h1 : startsWith ("pub fn ".data) (pyStrip ((splitLines content).getD i [])) = true)
    (h2 : parseFunLine (pyStrip ((splitLines content).getD i [])) = none) :
    (extract_function_signatures content).all (fun f => f.line != i + 1) = true := by
  rw [List.all_eq_true]
  intro f hf
  rcases mem_extract_fun hf with ⟨k, _, hk⟩
  rcases funAt_eq_some hk with ⟨_, hline, _⟩
  simp only [bne_iff_ne, ne_eq]
  intro heq
  have hki : k = i := by omega
  subst hki
  simp only [funAt] at hk
  rw [h2] at hk
  simp at hk

/-- Concrete input for C3's witness: a `pub fn` whose parameter list spans
two lines, so the first line has no closing parenthesis. -/
def c3Input : List Char := ("pub fn add(a: i32,\n    b: i32) i32 \x7b").data

/-- Witness for C3: the first line of `c3Input` starts with the marker, the
pattern does not match it, and no extracted record carries line number 1. -/
theorem unmatched_pub_fn_line_yields_no_record_witness :
    startsWith ("pub fn ".data) (pyStrip ((splitLines c3Input).getD 0 [])) = true ∧
    parseFunLine (pyStrip ((splitLines c3Input).getD 0 [])) = none ∧
    (extract_function_signatures c3Input).all (fun f => f.line != 0 + 1) = true :=
  ⟨by decide, by decide,
   unmatched_pub_fn_line_yields_no_record c3Input 0 (by decide) (by decide)⟩

/-- Concrete input for C6: an item doc comment immediately above a `pub fn`
declaration. -/
def c6Input : List Char :=
  ("/// Adds two numbers\npub fn add(a: i32, b: i32) i32 \x7b").data

/-- C6: on `/// Adds two numbers` followed by
`pub fn add(a: i32, b: i32) i32 {`, the extractor produces exactly one
record, with name `add`, the single documentation entry
`Adds two numbers` (its `doc_lines` list is that one entry), and return
type `i32`. -/
theorem add_function_extraction_scenario :
    extract_function_signatures c6Input =
      [{ name := ("add").data, params := ("a: i32, b: i32").data,
         return_type := ("i32").data,
         documentation := ("Adds two numbers").data, line := 2 }] ∧
    docsAbove (splitLines c6Input) 1 = [("Adds two numbers").data] ∧
    (extract_function_signatures c6Input).all
      (fun f => hasSub ("i32".data) f.return_type) = true := by
  refine ⟨by decide, by decide, by decide⟩

/-- The concrete line refuting C4 as stated: two spaces follow the `///`
marker. -/
def c4Line : List Char := ("///  two").data

/-- C4 counterexample: on a line with two spaces after the marker, the code
stores `two` — all leading whitespace after the marker is stripped — while
the claim's prescription (marker plus one following space removed, nothing
else altered) is ` two`. -/
theorem doc_marker_strip_counterexample :
    extract_doc_comments c4Line = [("two").data] ∧
    c4ClaimValue (pyStrip c4Line) = (" two").data ∧
    ("two").data ≠ (" two").data := by
  refine ⟨by decide, by decide, by decide⟩

/-- C4 (amended): every line whose trimmed form begins with `//!` or `///`
contributes, in source order, the line's text with the marker removed and
the remainder trimmed of leading and trailing whitespace; lines matching
neither marker contribute nothing; and source text with zero doc-comment
lines yields an empty sequence. -/
theorem doc_comment_lines_collected_and_trimmed :
    (∀ content : List Char,
      extract_doc_comments content = (splitLines content).filterMap lineDocValue) ∧
    (∀ content : List Char,
      (splitLines content).all (fun l => (lineDocValue l).isNone) = true →
      extract_doc_comments content = []) := by
  constructor
  · intro content
    exact docCommentsLoop_eq_filterMap (splitLines content)
  · intro content hall
    rw [extract_doc_comments, docCommentsLoop_eq_filterMap]
    rw [List.all_eq_true] at hall
    rw [List.filterMap_eq_nil_iff]
    intro l hl
    have := hall l hl
    exact Option.isNone_iff_eq_none.mp (by simpa using this)

/-- A source text with no documentation-comment lines, for C4's witness. -/
def c4NoDocs : List Char := ("const x = 1;\n// plain comment").data

/-- Witness for C4 (amended): a text with zero doc-comment lines yields the
empty sequence. -/
theorem doc_comment_lines_collected_and_trimmed_witness :
    ((splitLines c4NoDocs).all (fun l => (lineDocValue l).isNone) = true) ∧
    extract_doc_comments c4NoDocs = [] :=
  ⟨by decide, doc_comment_lines_collected_and_trimmed.2 c4NoDocs (by decide)⟩

/-- Batch with an I/O-failing file in the middle (the read of `b.zig`
raises an uncaught `OSError`). -/
def ioBatch : List (List Char × ReadOutcome) :=
  [(("src/a.zig").data, .ok (("//! module a").data)),
   (("src/b.zig").data, .ioErr),
   (("src/c.zig").data, .ok (("//! module c").data))]

/-- C2 counterexample: a per-file I/O read error is not caught by
`process_source_file` (only `UnicodeDecodeError` is), so the exception
propagates and the whole batch aborts — the remaining file is never
processed and no warning is logged.  The claim's "any per-file read error
(decoding or I/O) … is never fatal" is therefore false. -/
theorem io_error_aborts_scan :
    scan_source_files (("src").data) ioBatch = Except.error () := rfl

/-- C2 (amended): any per-file *decoding* error is logged as a warning and
causes only that file to be skipped; processing of the remaining files
continues and a decoding error is never fatal.  (I/O errors are not caught
and abort the run — see the counterexample.) -/
theorem decode_errors_skipped_batch_continues
    (src : List Char) (files : List (List Char × ReadOutcome))
    (hio : files.all (fun e => e.2 != ReadOutcome.ioErr) = true) :
    scan_source_files src files =
      .ok (files.filterMap (fun e => match e.2 with
            | .ok c => some (e.1, fileRecordOf src e.1 c)
            | _ => none),
           files.filterMap (fun e => match e.2 with
            | .decodeErr => some (warnMsg e.1)
            | _ => none)) := by
  induction files with
  | nil => rfl
  | cons e rest ih =>
    rcases e with ⟨p, r⟩
    rw [List.all_cons, Bool.and_eq_true] at hio
    cases r with
    | ok c =>
      simp only [scan_source_files, process_source_file, ih hio.2, List.filterMap_cons]
      rfl
    | decodeErr =>
      simp only [scan_source_files, process_source_file, ih hio.2, List.filterMap_cons]
      rfl
    | ioErr => exact absurd hio.1 (by simp)

/-- Batch with a decode-failing file in the middle, for C2's witness. -/
def decodeBatch : List (List Char × ReadOutcome) :=
  [(("src/a.zig").data, .ok (("/// doc\npub fn f() void \x7b").data)),
   (("src/b.zig").data, .decodeErr),
   (("src/c.zig").data, .ok (("//! m").data))]

/-- Witness for C2 (amended): a decode error in the middle of a batch is
warned about and skipped while both neighbours are processed. -/
theorem decode_errors_skipped_batch_continues_witness :
    decodeBatch.all (fun e => e.2 != ReadOutcome.ioErr) = true ∧
    scan_source_files (("src").data) decodeBatch =
      .ok (decodeBatch.filterMap (fun e => match e.2 with
            | .ok c => some (e.1, fileRecordOf (("src").data) e.1 c)
            | _ => none),
           decodeBatch.filterMap (fun e => match e.2 with
            | .decodeErr => some (warnMsg e.1)
            | _ => none)) :=
  ⟨by decide,
   decode_errors_skipped_batch_continues (("src").data) decodeBatch (by decide)⟩

theorem writeChapters_eq_flatten (fs : List Char → Option (List Char)) :
    ∀ l : List (Nat × List Char × List Char),
      writeChapters fs l =
        (l.map (fun e => chapterSection fs e.1 e.2.1 e.2.2)).flatten := by
  intro l
  induction l with
  | nil => rfl
  | cons e rest ih =>
    rcases e with ⟨i, fn, title⟩
    rw [writeChapters, List.map_cons, List.flatten_cons, ih]

/-- C5: the assembled book is the header, the table of contents, and then
exactly one section per chapter-registry entry, in registry order; there
are as many sections as registry entries whatever the directory state; and
a chapter whose file is missing yields its numbered heading followed by the
literal `*Chapter not found: …*` notice.  Assembly is a total function —
it never fails on a missing chapter. -/
theorem book_has_one_section_per_registry_entry
    (fs : List Char → Option (List Char)) (ts : List Char)
    (chapters : List (List Char × List Char)) :
    (generate_combined_markdown fs ts chapters =
      bookHeader ts ++ ("## Table of Contents\n\n").data ++
      writeToc (List.enumFrom 1 chapters) ++ ("\n---\n\n").data ++
      ((List.enumFrom 1 chapters).map
        (fun e => chapterSection fs e.1 e.2.1 e.2.2)).flatten) ∧
    (((List.enumFrom 1 chapters).map
        (fun e => chapterSection fs e.1 e.2.1 e.2.2)).length = chapters.length) ∧
    (∀ (i : Nat) (fn title : List Char), fs fn = none →
      chapterSection fs i fn title =
        ("# ").data ++ natStr i ++ (". ").data ++ title ++
        ("\n\n*Chapter not found: ").data ++ fn ++ ("*\n\n---\n\n").data) := by
  refine ⟨?_, ?_, ?_⟩
  · rw [generate_combined_markdown, writeChapters_eq_flatten]
  · rw [List.length_map, List.enumFrom_length]
  · intro i fn title hnone
    rw [chapterSection, hnone]

/-- Witness for C5: the section produced for a missing chapter of the fixed
registry is the numbered heading plus the literal notice. -/
theorem book_has_one_section_per_registry_entry_witness :
    chapterSection (fun _ => none) 3 (("03-quick-start.md").data)
        (("Quick Start").data) =
      ("# ").data ++ natStr 3 ++ (". ").data ++ ("Quick Start").data ++
      ("\n\n*Chapter not found: ").data ++ ("03-quick-start.md").data ++
      ("*\n\n---\n\n").data :=
  (book_has_one_section_per_registry_entry (fun _ => none) [] defaultChapters).2.2
    3 (("03-quick-start.md").data) (("Quick Start").data) rfl

/-- Directory state of the spec's assembly scenario: only `a.md` exists,
with content `# A\nHello`. -/
def fsAB : List Char → Option (List Char) :=
  fun fn => if fn = ("a.md").data then some (("# A\nHello").data) else none

/-- The two-chapter registry of the spec's assembly scenario. -/
def registryAB : List (List Char × List Char) :=
  [(("a.md").data, ("Intro").data), (("b.md").data, ("Setup").data)]

/-- The assembled scenario book (fixed timestamp). -/
def bookAB : List Char :=
  generate_combined_markdown fsAB (("2024-01-01 00:00:00").data) registryAB

set_option maxRecDepth 100000 in
/-- C7: an existing chapter's section reproduces the chapter's content under
its generated numbered heading, with the content's own first line dropped
exactly when that first line starts with `#`.  In the spec's scenario the
sole existing chapter `# A\nHello` contributes `Hello` and the `# A` line
appears nowhere in the book, while the other registry entry gets the
missing-chapter notice and the TOC has both entries. -/
theorem existing_chapter_drops_leading_heading :
    (∀ (fs : List Char → Option (List Char)) (i : Nat) (fn title c : List Char),
      fs fn = some c →
      chapterSection fs i fn title =
        ("# ").data ++ natStr i ++ (". ").data ++ title ++ ("\n\n").data ++
        (if startsWith (("#").data) ((splitLines c).headD []) then
           joinNL (splitLines c).tail
         else c) ++ ("\n\n---\n\n").data) ∧
    hasSub (("# 1. Intro\n\nHello\n\n---\n\n").data) bookAB = true ∧
    hasSub (("# 2. Setup\n\n*Chapter not found: b.md*\n\n---\n\n").data) bookAB = true ∧
    hasSub (("# A").data) bookAB = false ∧
    writeToc (List.enumFrom 1 registryAB) =
      ("1. [Intro](#intro)\n2. [Setup](#setup)\n").data := by
  refine ⟨?_, by decide, by decide, by decide, by decide⟩
  intro fs i fn title c hc
  rw [chapterSection, hc]
  rfl

/-- Witness for C7: the scenario chapter `a.md` (content `# A\nHello`)
rendered through the theorem's equation. -/
theorem existing_chapter_drops_leading_heading_witness :
    chapterSection fsAB 1 (("a.md").data) (("Intro").data) =
      ("# ").data ++ natStr 1 ++ (". ").data ++ ("Intro").data ++ ("\n\n").data ++
      (if startsWith (("#").data) ((splitLines (("# A\nHello").data)).headD []) then
         joinNL (splitLines (("# A\nHello").data)).tail
       else ("# A\nHello").data) ++ ("\n\n---\n\n").data :=
  existing_chapter_drops_leading_heading.1 fsAB 1 (("a.md").data) (("Intro").data)
    (("# A\nHello").data) (by decide)

/-- C9: the API reference renderer is deterministic — its output is a
function of the file records alone.  The renderer runs with the ambient
clock available (`t1`, `t2` are two different clock readings on two runs)
but never consults it, so two runs over the same records are
byte-identical; no timestamp occurs in the reference itself. -/
theorem api_reference_deterministic
    (records : List FileRecord) (t1 t2 : List Char) :
    generate_api_reference t1 records = generate_api_reference t2 records := rfl

end Zctor
